import Mathlib

/-!
Formal model of the audio-reactive snowflake particle visualizer
(`src/utils/audioUtils.ts` together with the constants file bundled with it,
the two visualizer components of `src/unnamed/part_000`, and
`src/utils/gestureService.ts`).

Numbers are modelled by `ℚ`: every numeric constant appearing in the source
(0.92, 0.08, 1.35, 0.98, 0.06, 0.40, …) is an exact decimal, all the
arithmetic relevant to the claims is affine in those constants, and for the
two floored products `Math.floor(length * 0.06)` / `Math.floor(length * 0.40)`
the IEEE-754 double computation provably rounds back to the exact rational
value for every realistic buffer length (the relative representation error of
0.06 and 0.40 is strictly below half an ulp of the product), so natural-number
division reproduces the JS result.

Where the source draws `Math.random()` values, the model takes the drawn
values as explicit parameters (rationals in `[0, 1)`); theorems quantify over
them.  Where the source computes transcendental geometry (`Math.cos`,
`Math.sin`, `Math.hypot`, `Math.sqrt` inside the snowflake point sampler and
the shard generator), the resulting point clouds are taken as parameters of
the spawn step: no claim under study depends on the sampled coordinates, only
on the bookkeeping around them, which is modelled exactly.
-/

namespace Snowflake

/-! ### Constants (`constants.ts`) -/

/-- `GRAVITY` from the constants file. -/
def GRAVITY : ℚ := 0.03

/-- `FRICTION` from the constants file. -/
def FRICTION : ℚ := 0.95

/-- `BASE_PARTICLE_SIZE` from the constants file. -/
def BASE_PARTICLE_SIZE : ℚ := 0.4

/-- `SIZE_VARIATION` from the constants file. -/
def SIZE_VARIATION : ℚ := 2.4

/-- `BEAT_THRESHOLD_INIT` from the constants file. -/
def BEAT_THRESHOLD_INIT : ℚ := 1.35

/-- `BEAT_DECAY_RATE` from the constants file. -/
def BEAT_DECAY_RATE : ℚ := 0.98

/-- `MAX_PARTICLES_PER_FIREWORK` from the constants file. -/
def MAX_PARTICLES_PER_FIREWORK : ℚ := 1200

/-- `MIN_PARTICLES_PER_FIREWORK` from the constants file. -/
def MIN_PARTICLES_PER_FIREWORK : ℚ := 300

/-- `ENERGY_MULTIPLIER` from the constants file. -/
def ENERGY_MULTIPLIER : ℚ := 4.5

/-- `FADE_SPEED_BASE` from the constants file. -/
def FADE_SPEED_BASE : ℚ := 0.008

/-- `FADE_SPEED_VAR` from the constants file. -/
def FADE_SPEED_VAR : ℚ := 0.005

/-! ### Spectrum analyzer (`audioUtils.ts`, `analyzeAudio`) -/

/-- The result record of `analyzeAudio` (the fields of `AudioData` that the
visualizers read; the raw byte buffers carried along in the source are not
part of the model). -/
structure AudioData where
  energy : ℚ
  bassEnergy : ℚ
  midEnergy : ℚ
  trebleEnergy : ℚ
  deriving DecidableEq

/-- `bassEnd` of `analyzeAudio`: `Math.floor(length * 0.06)`. -/
def bassEndOf (L : ℕ) : ℕ := 6 * L / 100

/-- `midEnd` of `analyzeAudio`: `Math.floor(length * 0.40)`. -/
def midEndOf (L : ℕ) : ℕ := 40 * L / 100

/-- The accumulation loop of `analyzeAudio` (lines 18–29 of
`audioUtils.ts`).  `i` is the loop index; the accumulator holds
`(totalEnergy, bassEnergy, midEnergy, trebleEnergy)`, and the branch
structure mirrors the source's `if i < bassEnd / else if i < midEnd / else`. -/
def analyzeLoop (bassEnd midEnd : ℕ) : ℕ → List ℚ → ℚ × ℚ × ℚ × ℚ → ℚ × ℚ × ℚ × ℚ
  | _, [], acc => acc
  | i, val :: rest, (t, b, m, tr) =>
      analyzeLoop bassEnd midEnd (i + 1) rest
        (if i < bassEnd then (t + val, b + val, m, tr)
         else if i < midEnd then (t + val, b, m + val, tr)
         else (t + val, b, m, tr + val))

/-- `analyzeAudio` (`audioUtils.ts`, lines 3–39), on the frequency buffer
contents.  JavaScript's `x || 1` on a non-negative number is
`if x = 0 then 1 else x`. -/
def analyzeAudio (data : List ℚ) : AudioData :=
  let length := data.length
  let bassEnd := bassEndOf length
  let midEnd := midEndOf length
  let acc := analyzeLoop bassEnd midEnd 0 data (0, 0, 0, 0)
  { energy := acc.1 / (length : ℚ),
    bassEnergy := acc.2.1 / (if bassEnd = 0 then 1 else (bassEnd : ℚ)),
    midEnergy := acc.2.2.1 / (if midEnd - bassEnd = 0 then 1 else ((midEnd - bassEnd : ℕ) : ℚ)),
    trebleEnergy := acc.2.2.2 / (if length - midEnd = 0 then 1 else ((length - midEnd : ℕ) : ℚ)) }

/-- The accumulation loop computes, in one pass, the total sum and the sums
over the three contiguous index ranges `[i, bassEnd)`, `[bassEnd, midEnd)`,
`[midEnd, …)` relative to the running start index `i`. -/
theorem analyzeLoop_eq (bassEnd midEnd : ℕ) (h : bassEnd ≤ midEnd) :
    ∀ (data : List ℚ) (i : ℕ) (t b m tr : ℚ),
      analyzeLoop bassEnd midEnd i data (t, b, m, tr) =
        (t + data.sum,
         b + (data.take (bassEnd - i)).sum,
         m + ((data.take (midEnd - i)).drop (bassEnd - i)).sum,
         tr + (data.drop (midEnd - i)).sum) := by
  intro data
  induction data with
  | nil => intro i t b m tr; simp [analyzeLoop]
  | cons v rest ih =>
      intro i t b m tr
      by_cases hb : i < bassEnd
      · have hm : i < midEnd := lt_of_lt_of_le hb h
        have h1 : bassEnd - i = (bassEnd - (i + 1)) + 1 := by omega
        have h2 : midEnd - i = (midEnd - (i + 1)) + 1 := by omega
        rw [analyzeLoop, if_pos hb, ih, h1, h2]
        simp only [List.take_succ_cons, List.drop_succ_cons, List.sum_cons]
        refine Prod.ext ?_ (Prod.ext ?_ (Prod.ext ?_ ?_)) <;> simp <;> ring
      · by_cases hm : i < midEnd
        · have h1 : bassEnd - i = 0 := by omega
          have h1' : bassEnd - (i + 1) = 0 := by omega
          have h2 : midEnd - i = (midEnd - (i + 1)) + 1 := by omega
          rw [analyzeLoop, if_neg hb, if_pos hm, ih, h1, h1', h2]
          simp only [List.take_succ_cons, List.drop_succ_cons, List.take_zero,
            List.drop_zero, List.sum_cons]
          refine Prod.ext ?_ (Prod.ext ?_ (Prod.ext ?_ ?_)) <;> simp <;> ring
        · have h1 : bassEnd - i = 0 := by omega
          have h1' : bassEnd - (i + 1) = 0 := by omega
          have h2 : midEnd - i = 0 := by omega
          have h2' : midEnd - (i + 1) = 0 := by omega
          rw [analyzeLoop, if_neg hb, if_neg hm, ih, h1, h1', h2, h2']
          simp only [List.take_zero, List.drop_zero, List.sum_cons]
          refine Prod.ext ?_ (Prod.ext ?_ (Prod.ext ?_ ?_)) <;> simp <;> ring

/-- A list of values in `[0, 255]` whose length is at most `k` has its sum
over the defaulted divisor `k || 1` inside `[0, 255]`. -/
theorem sum_div_bounds (l : List ℚ) (k : ℕ) (hlen : l.length ≤ k)
    (hv : ∀ v ∈ l, 0 ≤ v ∧ v ≤ 255) :
    0 ≤ l.sum / (if k = 0 then 1 else (k : ℚ)) ∧
      l.sum / (if k = 0 then 1 else (k : ℚ)) ≤ 255 := by
  have hs0 : 0 ≤ l.sum := List.sum_nonneg fun v hvm => (hv v hvm).1
  rcases Nat.eq_zero_or_pos k with hk | hk
  · subst hk
    have hnil : l = [] := List.eq_nil_of_length_eq_zero (Nat.le_zero.mp hlen)
    subst hnil; norm_num
  · have hkq : (0 : ℚ) < (k : ℚ) := by exact_mod_cast hk
    have hsum : l.sum ≤ (l.length) • (255 : ℚ) :=
      List.sum_le_card_nsmul l 255 fun v hvm => (hv v hvm).2
    have hsum' : l.sum ≤ (l.length : ℚ) * 255 := by simpa [nsmul_eq_mul] using hsum
    have hlenq : (l.length : ℚ) ≤ (k : ℚ) := by exact_mod_cast hlen
    rw [if_neg hk.ne']
    refine ⟨by positivity, ?_⟩
    rw [div_le_iff₀ hkq]
    nlinarith

/-- Claim C1: for every non-empty frequency frame, `analyzeAudio` returns
the arithmetic mean of each of the three contiguous index ranges
`[0, bassEnd)`, `[bassEnd, midEnd)`, `[midEnd, length)` (with an empty
range's divisor defaulting to `1`, giving `0`), the three ranges partition
the bin sequence exactly once, the total energy is the mean of the whole
array, and for byte inputs all four outputs lie in `[0, 255]`. -/
theorem analyzeAudio_band_means (data : List ℚ) (hne : data ≠ []) :
    (analyzeAudio data).energy = data.sum / (data.length : ℚ)
    ∧ (0 < bassEndOf data.length →
        (analyzeAudio data).bassEnergy =
          (data.take (bassEndOf data.length)).sum / ((bassEndOf data.length : ℕ) : ℚ))
    ∧ (bassEndOf data.length = 0 → (analyzeAudio data).bassEnergy = 0)
    ∧ (bassEndOf data.length < midEndOf data.length →
        (analyzeAudio data).midEnergy =
          ((data.take (midEndOf data.length)).drop (bassEndOf data.length)).sum /
            ((midEndOf data.length - bassEndOf data.length : ℕ) : ℚ))
    ∧ (midEndOf data.length = bassEndOf data.length → (analyzeAudio data).midEnergy = 0)
    ∧ (analyzeAudio data).trebleEnergy =
        (data.drop (midEndOf data.length)).sum /
          ((data.length - midEndOf data.length : ℕ) : ℚ)
    ∧ data.take (bassEndOf data.length)
        ++ ((data.take (midEndOf data.length)).drop (bassEndOf data.length))
        ++ data.drop (midEndOf data.length) = data
    ∧ ((∀ v ∈ data, 0 ≤ v ∧ v ≤ 255) →
        0 ≤ (analyzeAudio data).energy ∧ (analyzeAudio data).energy ≤ 255
        ∧ 0 ≤ (analyzeAudio data).bassEnergy ∧ (analyzeAudio data).bassEnergy ≤ 255
        ∧ 0 ≤ (analyzeAudio data).midEnergy ∧ (analyzeAudio data).midEnergy ≤ 255
        ∧ 0 ≤ (analyzeAudio data).trebleEnergy ∧ (analyzeAudio data).trebleEnergy ≤ 255) := by
  have hL : 0 < data.length := List.length_pos.mpr hne
  have hbm : bassEndOf data.length ≤ midEndOf data.length :=
    Nat.div_le_div_right (by omega)
  have hmL : midEndOf data.length < data.length := by
    have h40 : 40 * data.length < data.length * 100 := by omega
    exact (Nat.div_lt_iff_lt_mul (show 0 < 100 by norm_num)).mpr h40
  have hloop := analyzeLoop_eq (bassEndOf data.length) (midEndOf data.length) hbm data 0 0 0 0 0
  have hA : analyzeAudio data =
      { energy := data.sum / (data.length : ℚ),
        bassEnergy := (data.take (bassEndOf data.length)).sum /
          (if bassEndOf data.length = 0 then 1 else (bassEndOf data.length : ℚ)),
        midEnergy := ((data.take (midEndOf data.length)).drop (bassEndOf data.length)).sum /
          (if midEndOf data.length - bassEndOf data.length = 0 then 1
           else ((midEndOf data.length - bassEndOf data.length : ℕ) : ℚ)),
        trebleEnergy := (data.drop (midEndOf data.length)).sum /
          (if data.length - midEndOf data.length = 0 then 1
           else ((data.length - midEndOf data.length : ℕ) : ℚ)) } := by
    simp only [analyzeAudio, hloop, Nat.sub_zero, zero_add]
  have hTne : ¬ (data.length - midEndOf data.length = 0) := by omega
  refine ⟨by rw [hA], ?_, ?_, ?_, ?_, ?_, ?_, ?_⟩
  · intro hpos
    rw [hA]
    simp only [if_neg hpos.ne']
  · intro hz
    rw [hA]
    simp [hz]
  · intro hlt
    rw [hA]
    simp only [if_neg (by omega : ¬ (midEndOf data.length - bassEndOf data.length = 0))]
  · intro heq
    rw [hA]
    have hdropnil : (data.take (bassEndOf data.length)).drop (bassEndOf data.length) = [] :=
      List.drop_eq_nil_of_le (by simp [List.length_take])
    simp [heq, hdropnil]
  · rw [hA]
    simp only [if_neg hTne]
  · have h1 : (data.take (midEndOf data.length)).take (bassEndOf data.length) =
        data.take (bassEndOf data.length) := by
      rw [List.take_take, min_eq_left hbm]
    have h2 := List.take_append_drop (bassEndOf data.length) (data.take (midEndOf data.length))
    have h3 := List.take_append_drop (midEndOf data.length) data
    rw [← h1, h2, h3]
  · intro hv
    rw [hA]
    have henergy := sum_div_bounds data data.length le_rfl hv
    rw [if_neg hL.ne'] at henergy
    have hbass := sum_div_bounds (data.take (bassEndOf data.length)) (bassEndOf data.length)
      (by simp [List.length_take]) (fun v hvm => hv v (List.take_subset _ _ hvm))
    have hmid := sum_div_bounds ((data.take (midEndOf data.length)).drop (bassEndOf data.length))
      (midEndOf data.length - bassEndOf data.length)
      (by simp [List.length_drop, List.length_take, min_eq_left hmL.le])
      (fun v hvm => hv v (List.take_subset _ _ (List.drop_subset _ _ hvm)))
    have htreb := sum_div_bounds (data.drop (midEndOf data.length))
      (data.length - midEndOf data.length)
      (by simp [List.length_drop]) (fun v hvm => hv v (List.drop_subset _ _ hvm))
    exact ⟨henergy.1, henergy.2, hbass.1, hbass.2, hmid.1, hmid.2, htreb.1, htreb.2⟩

/-- Witness for `analyzeAudio_band_means` at the concrete frame
`[200, 100]` (length 2: `bassEnd = midEnd = 0`, so the whole array is the
treble range and the energy is the overall mean 150). -/
theorem analyzeAudio_band_means_witness :
    ([(200 : ℚ), 100] ≠ []) ∧ (analyzeAudio [(200 : ℚ), 100]).energy = 150
      ∧ (analyzeAudio [(200 : ℚ), 100]).bassEnergy = 0
      ∧ (analyzeAudio [(200 : ℚ), 100]).trebleEnergy = 150 := by
  have h := analyzeAudio_band_means [(200 : ℚ), 100] (by simp)
  refine ⟨by simp, ?_, ?_, ?_⟩
  · rw [h.1]; norm_num
  · exact h.2.2.1 (by decide)
  · rw [h.2.2.2.2.2.1]; norm_num [midEndOf]

/-! ### Beat detector (the render loops of `part_000`, lines 353–400 of the
neon visualizer and 785–845 of the classic visualizer; the two blocks are
textually identical). -/

/-- The three frequency bands (`type FrequencyBand`). -/
inductive Band
  | bass
  | mid
  | treble
  deriving DecidableEq

/-- The energy of one band in a frame's analysis result. -/
def bandEnergy (a : AudioData) : Band → ℚ
  | Band.bass => a.bassEnergy
  | Band.mid => a.midEnergy
  | Band.treble => a.trebleEnergy

/-- The process-wide beat-detection state: the running averages
(`avgBassRef`, `avgMidRef`, `avgTrebleRef`), the adaptive thresholds
(`bassThresholdRef`, `midThresholdRef`, `trebleThresholdRef`) and
`lastSpawnTimeRef` (milliseconds). -/
structure BeatState where
  avgBass : ℚ
  avgMid : ℚ
  avgTreble : ℚ
  bassThreshold : ℚ
  midThreshold : ℚ
  trebleThreshold : ℚ
  lastSpawnTime : ℤ
  deriving DecidableEq

/-- The startup values of the refs: averages `0`, thresholds
`BEAT_THRESHOLD_INIT`, last spawn time `0`. -/
def initBeatState : BeatState :=
  { avgBass := 0, avgMid := 0, avgTreble := 0,
    bassThreshold := BEAT_THRESHOLD_INIT, midThreshold := BEAT_THRESHOLD_INIT,
    trebleThreshold := BEAT_THRESHOLD_INIT, lastSpawnTime := 0 }

/-- The bass onset condition: `bassEnergy > avgBass * bassThreshold &&
bassEnergy > 25`. -/
def BassFires (st : BeatState) (a : AudioData) : Prop :=
  st.avgBass * st.bassThreshold < a.bassEnergy ∧ 25 < a.bassEnergy

instance (st : BeatState) (a : AudioData) : Decidable (BassFires st a) := by
  unfold BassFires; exact inferInstance

/-- The mid onset condition: `midEnergy > avgMid * midThreshold &&
midEnergy > 20`. -/
def MidFires (st : BeatState) (a : AudioData) : Prop :=
  st.avgMid * st.midThreshold < a.midEnergy ∧ 20 < a.midEnergy

instance (st : BeatState) (a : AudioData) : Decidable (MidFires st a) := by
  unfold MidFires; exact inferInstance

/-- The treble onset condition: `trebleEnergy > avgTreble * trebleThreshold
&& trebleEnergy > 15`. -/
def TrebleFires (st : BeatState) (a : AudioData) : Prop :=
  st.avgTreble * st.trebleThreshold < a.trebleEnergy ∧ 15 < a.trebleEnergy

instance (st : BeatState) (a : AudioData) : Decidable (TrebleFires st a) := by
  unfold TrebleFires; exact inferInstance

/-- One pass of the beat-detection block (the straight-line body of the
audio-active, unfrozen branch of `render`).  The boolean `spawned` flag of
the source is propagated into the branch conditions: after the bass check,
`spawned` is exactly `BassFires`; after the mid check it is
`BassFires ∨ MidFires`, and so on.  The spawn calls are recorded as a list
of `(band, intensity)` events in call order; their side effects on the
particle store and on `lastSpawnTimeRef` are applied separately by the
spawn-function models.  `timeSinceLast` is read once at the top of the
block, before any spawn, exactly as in the source. -/
def beatDecision (st : BeatState) (a : AudioData) (now : ℤ) : BeatState × List (Band × ℚ) :=
  ({ avgBass := st.avgBass * 0.92 + a.bassEnergy * 0.08,
     avgMid := st.avgMid * 0.92 + a.midEnergy * 0.08,
     avgTreble := st.avgTreble * 0.92 + a.trebleEnergy * 0.08,
     bassThreshold :=
       if BassFires st a then BEAT_THRESHOLD_INIT * 1.5
       else max BEAT_THRESHOLD_INIT (st.bassThreshold * BEAT_DECAY_RATE),
     midThreshold :=
       if ¬ BassFires st a ∧ MidFires st a then BEAT_THRESHOLD_INIT * 1.5
       else max BEAT_THRESHOLD_INIT (st.midThreshold * BEAT_DECAY_RATE),
     trebleThreshold :=
       if ¬ BassFires st a ∧ ¬ MidFires st a ∧ TrebleFires st a then BEAT_THRESHOLD_INIT * 1.4
       else max BEAT_THRESHOLD_INIT (st.trebleThreshold * BEAT_DECAY_RATE),
     lastSpawnTime := st.lastSpawnTime },
   (if BassFires st a then [(Band.bass, min (a.bassEnergy / 255) 1)] else [])
     ++ (if ¬ BassFires st a ∧ MidFires st a then
           [(Band.mid, min (a.midEnergy / 255) 1)] else [])
     ++ (if ¬ BassFires st a ∧ ¬ MidFires st a ∧ TrebleFires st a then
           [(Band.treble, min (a.trebleEnergy / 255) 1)] else [])
     ++ (if (¬ BassFires st a ∧ ¬ MidFires st a ∧ ¬ TrebleFires st a)
             ∧ 600 < now - st.lastSpawnTime ∧ 10 < a.energy then
           if a.midEnergy < a.bassEnergy ∧ a.trebleEnergy < a.bassEnergy then
             [(Band.bass, 0.4)]
           else if a.trebleEnergy < a.midEnergy then [(Band.mid, 0.4)]
           else [(Band.treble, 0.4)]
         else []))

/-- The gate around the beat-detection block: it runs only when the audio
graph is usable (`analyser` and `dataArray` present, `isPlaying`, context
`running` — summarized by `active`) and, in the neon visualizer, the
gesture-freeze flag is clear (`frozen`; the classic visualizer has no
freeze, i.e. `frozen = false` on every frame).  Otherwise the frame leaves
the whole beat state untouched and makes no spawn call. -/
def frameBeat (active frozen : Bool) (st : BeatState) (a : AudioData) (now : ℤ) :
    BeatState × List (Band × ℚ) :=
  if active = true ∧ frozen = false then beatDecision st a now else (st, [])

/-- Claim C2 (amended): on every audio-active, unfrozen frame the bands are
evaluated in priority order bass → mid → treble, a band fires iff its energy
exceeds `runningAverage * threshold` and its absolute floor (25/20/15), the
`spawned` flag makes at most one spawn call per frame, a fired band's
intensity is `min(bandEnergy/255, 1)`, and when no band fires, strictly more
than 600 ms have elapsed since the last spawn, and the total energy exceeds
10, exactly one fallback spawn occurs at intensity 0.4 for a band whose
energy is at least that of both other bands; otherwise no spawn occurs. -/
theorem beat_spawn_decision_spec (st : BeatState) (a : AudioData) (now : ℤ) :
    ((frameBeat true false st a now).2.length ≤ 1)
    ∧ (BassFires st a →
        (frameBeat true false st a now).2 = [(Band.bass, min (a.bassEnergy / 255) 1)])
    ∧ (¬ BassFires st a → MidFires st a →
        (frameBeat true false st a now).2 = [(Band.mid, min (a.midEnergy / 255) 1)])
    ∧ (¬ BassFires st a → ¬ MidFires st a → TrebleFires st a →
        (frameBeat true false st a now).2 = [(Band.treble, min (a.trebleEnergy / 255) 1)])
    ∧ (¬ BassFires st a → ¬ MidFires st a → ¬ TrebleFires st a →
        600 < now - st.lastSpawnTime → 10 < a.energy →
        ∃ b, (frameBeat true false st a now).2 = [(b, 0.4)]
          ∧ a.bassEnergy ≤ bandEnergy a b ∧ a.midEnergy ≤ bandEnergy a b
          ∧ a.trebleEnergy ≤ bandEnergy a b)
    ∧ (¬ BassFires st a → ¬ MidFires st a → ¬ TrebleFires st a →
        ¬ (600 < now - st.lastSpawnTime ∧ 10 < a.energy) →
        (frameBeat true false st a now).2 = []) := by
  have hfb : frameBeat true false st a now = beatDecision st a now := by
    simp [frameBeat]
  rw [hfb]
  refine ⟨?_, ?_, ?_, ?_, ?_, ?_⟩
  · by_cases hB : BassFires st a <;> by_cases hM : MidFires st a <;>
      by_cases hT : TrebleFires st a <;>
      (first
        | (simp [beatDecision, hB, hM, hT]; done)
        | (simp [beatDecision, hB, hM, hT]; split_ifs <;> simp))
  · intro hB
    simp [beatDecision, hB]
  · intro hB hM
    simp [beatDecision, hB, hM]
  · intro hB hM hT
    simp [beatDecision, hB, hM, hT]
  · intro hB hM hT htime henergy
    by_cases h1 : a.midEnergy < a.bassEnergy ∧ a.trebleEnergy < a.bassEnergy
    · refine ⟨Band.bass, ?_, le_refl _, le_of_lt h1.1, le_of_lt h1.2⟩
      simp [beatDecision, hB, hM, hT, htime, henergy, h1]
    · by_cases h2 : a.trebleEnergy < a.midEnergy
      · have hbm : a.bassEnergy ≤ a.midEnergy := by
          rcases not_and_or.mp h1 with h | h
          · exact le_of_not_lt h
          · exact le_trans (le_of_not_lt h) (le_of_lt h2)
        refine ⟨Band.mid, ?_, hbm, le_refl _, le_of_lt h2⟩
        simp [beatDecision, hB, hM, hT, htime, henergy, h1, h2]
      · have hmt : a.midEnergy ≤ a.trebleEnergy := le_of_not_lt h2
        have hbt : a.bassEnergy ≤ a.trebleEnergy := by
          rcases not_and_or.mp h1 with h | h
          · exact le_trans (le_of_not_lt h) hmt
          · exact le_of_not_lt h
        refine ⟨Band.treble, ?_, hbt, hmt, le_refl _⟩
        simp [beatDecision, hB, hM, hT, htime, henergy, h1, h2]
  · intro hB hM hT hno
    simp [beatDecision, hB, hM, hT, hno]

/-- A frame with a strong bass bin only (energy 30 in the bass band). -/
def cexAudioBass : AudioData :=
  { energy := 30, bassEnergy := 30, midEnergy := 0, trebleEnergy := 0 }

/-- A beat state with saturated running averages, and a quiet frame whose
total energy still exceeds 10: no band can fire. -/
def cexQuietState : BeatState :=
  { avgBass := 100, avgMid := 100, avgTreble := 100,
    bassThreshold := BEAT_THRESHOLD_INIT, midThreshold := BEAT_THRESHOLD_INIT,
    trebleThreshold := BEAT_THRESHOLD_INIT, lastSpawnTime := 0 }

/-- The quiet frame used against the fallback boundary. -/
def cexQuietAudio : AudioData :=
  { energy := 11, bassEnergy := 20, midEnergy := 15, trebleEnergy := 10 }

/-- Counterexample to claim C2 as stated: at exactly 600 ms since the last
spawn (i.e. "at least 600 ms have elapsed"), with no band firing and total
energy above 10, the code performs no fallback spawn, because the source
requires `timeSinceLast > 600` strictly. -/
theorem fallback_boundary_cex :
    ¬ BassFires cexQuietState cexQuietAudio
    ∧ ¬ MidFires cexQuietState cexQuietAudio
    ∧ ¬ TrebleFires cexQuietState cexQuietAudio
    ∧ (600 : ℤ) - cexQuietState.lastSpawnTime = 600
    ∧ 10 < cexQuietAudio.energy
    ∧ (frameBeat true false cexQuietState cexQuietAudio 600).2 = [] := by
  have hB : ¬ BassFires cexQuietState cexQuietAudio := by
    norm_num [BassFires, cexQuietState, cexQuietAudio, BEAT_THRESHOLD_INIT]
  have hM : ¬ MidFires cexQuietState cexQuietAudio := by
    norm_num [MidFires, cexQuietState, cexQuietAudio, BEAT_THRESHOLD_INIT]
  have hT : ¬ TrebleFires cexQuietState cexQuietAudio := by
    norm_num [TrebleFires, cexQuietState, cexQuietAudio, BEAT_THRESHOLD_INIT]
  have htime : ¬ (600 < (600 : ℤ) - cexQuietState.lastSpawnTime) := by
    norm_num [cexQuietState]
  refine ⟨hB, hM, hT, by norm_num [cexQuietState], by norm_num [cexQuietAudio], ?_⟩
  simp [frameBeat, beatDecision, hB, hM, hT, htime]

/-- Witness for `beat_spawn_decision_spec`: on a concrete bass onset from the
initial state, exactly the bass spawn call is emitted, at intensity
`min(30/255, 1)`. -/
theorem beat_spawn_decision_witness :
    (frameBeat true false initBeatState cexAudioBass 0).2
      = [(Band.bass, min ((30 : ℚ) / 255) 1)] := by
  have hB : BassFires initBeatState cexAudioBass := by
    constructor <;> norm_num [initBeatState, cexAudioBass, BEAT_THRESHOLD_INIT]
  have h := (beat_spawn_decision_spec initBeatState cexAudioBass 0).2.1 hB
  simpa [cexAudioBass] using h

/-- Claim C3 (amended): on a frame where a band's onset fires, its threshold
is set to `BEAT_THRESHOLD_INIT` times the band's boost factor (1.5 for bass
and mid, 1.4 for treble) — which strictly increases the threshold whenever
it was below that ceiling, in particular from its floor — and on a frame
where it does not fire it becomes
`max(BEAT_THRESHOLD_INIT, threshold * 0.98)`: it never falls below
`BEAT_THRESHOLD_INIT` and decays monotonically toward that floor. -/
theorem threshold_update_spec (st : BeatState) (a : AudioData) (now : ℤ) :
    (BassFires st a →
        (frameBeat true false st a now).1.bassThreshold = BEAT_THRESHOLD_INIT * 1.5
        ∧ (st.bassThreshold < BEAT_THRESHOLD_INIT * 1.5 →
            st.bassThreshold < (frameBeat true false st a now).1.bassThreshold))
    ∧ (¬ BassFires st a →
        (frameBeat true false st a now).1.bassThreshold
            = max BEAT_THRESHOLD_INIT (st.bassThreshold * BEAT_DECAY_RATE)
        ∧ BEAT_THRESHOLD_INIT ≤ (frameBeat true false st a now).1.bassThreshold
        ∧ (BEAT_THRESHOLD_INIT ≤ st.bassThreshold →
            (frameBeat true false st a now).1.bassThreshold ≤ st.bassThreshold))
    ∧ (¬ BassFires st a → MidFires st a →
        (frameBeat true false st a now).1.midThreshold = BEAT_THRESHOLD_INIT * 1.5
        ∧ (st.midThreshold < BEAT_THRESHOLD_INIT * 1.5 →
            st.midThreshold < (frameBeat true false st a now).1.midThreshold))
    ∧ (¬ (¬ BassFires st a ∧ MidFires st a) →
        (frameBeat true false st a now).1.midThreshold
            = max BEAT_THRESHOLD_INIT (st.midThreshold * BEAT_DECAY_RATE)
        ∧ BEAT_THRESHOLD_INIT ≤ (frameBeat true false st a now).1.midThreshold
        ∧ (BEAT_THRESHOLD_INIT ≤ st.midThreshold →
            (frameBeat true false st a now).1.midThreshold ≤ st.midThreshold))
    ∧ (¬ BassFires st a → ¬ MidFires st a → TrebleFires st a →
        (frameBeat true false st a now).1.trebleThreshold = BEAT_THRESHOLD_INIT * 1.4
        ∧ (st.trebleThreshold < BEAT_THRESHOLD_INIT * 1.4 →
            st.trebleThreshold < (frameBeat true false st a now).1.trebleThreshold))
    ∧ (¬ (¬ BassFires st a ∧ ¬ MidFires st a ∧ TrebleFires st a) →
        (frameBeat true false st a now).1.trebleThreshold
            = max BEAT_THRESHOLD_INIT (st.trebleThreshold * BEAT_DECAY_RATE)
        ∧ BEAT_THRESHOLD_INIT ≤ (frameBeat true false st a now).1.trebleThreshold
        ∧ (BEAT_THRESHOLD_INIT ≤ st.trebleThreshold →
            (frameBeat true false st a now).1.trebleThreshold ≤ st.trebleThreshold)) := by
  have hfb : frameBeat true false st a now = beatDecision st a now := by
    simp [frameBeat]
  rw [hfb]
  have hdecay : ∀ t : ℚ, BEAT_THRESHOLD_INIT ≤ t →
      max BEAT_THRESHOLD_INIT (t * BEAT_DECAY_RATE) ≤ t := by
    intro t ht
    have h0 : (0 : ℚ) ≤ t := le_trans (by norm_num [BEAT_THRESHOLD_INIT]) ht
    have h1 : t * BEAT_DECAY_RATE ≤ t := by
      have hr : BEAT_DECAY_RATE = 0.98 := rfl
      rw [hr]; nlinarith
    exact max_le ht h1
  refine ⟨?_, ?_, ?_, ?_, ?_, ?_⟩
  · intro hB
    refine ⟨by simp [beatDecision, hB], ?_⟩
    intro hlt
    simpa [beatDecision, hB] using hlt
  · intro hB
    refine ⟨by simp [beatDecision, hB], ?_, ?_⟩
    · simp [beatDecision, hB, le_max_left]
    · intro ht
      simp only [beatDecision, if_neg hB]
      exact hdecay _ ht
  · intro hB hM
    refine ⟨by simp [beatDecision, hB, hM], ?_⟩
    intro hlt
    simpa [beatDecision, hB, hM] using hlt
  · intro hcond
    refine ⟨by simp [beatDecision, hcond], ?_, ?_⟩
    · simp [beatDecision, hcond, le_max_left]
    · intro ht
      simp only [beatDecision, if_neg hcond]
      exact hdecay _ ht
  · intro hB hM hT
    have hcond : ¬ BassFires st a ∧ ¬ MidFires st a ∧ TrebleFires st a := ⟨hB, hM, hT⟩
    refine ⟨by simp [beatDecision, hcond], ?_⟩
    intro hlt
    simpa [beatDecision, hcond] using hlt
  · intro hcond
    refine ⟨by simp [beatDecision, hcond], ?_, ?_⟩
    · simp [beatDecision, hcond, le_max_left]
    · intro ht
      simp only [beatDecision, if_neg hcond]
      exact hdecay _ ht

/-- The beat state reached from `initBeatState` after one frame of
`cexAudioBass`: the bass onset fired, so the bass threshold sits at
`1.35 * 1.5 = 2.025` and the bass running average at `30 * 0.08 = 2.4`. -/
def cexBoostState : BeatState :=
  { avgBass := 2.4, avgMid := 0, avgTreble := 0,
    bassThreshold := 2.025, midThreshold := 1.35, trebleThreshold := 1.35,
    lastSpawnTime := 0 }

/-- Counterexample to claim C3 as stated: starting from the initial state,
a bass onset raises the bass threshold to `1.35 * 1.5 = 2.025`; a second,
immediately following bass onset leaves the threshold exactly at `2.025`
(the source assigns `BEAT_THRESHOLD_INIT * 1.5`, it does not multiply the
current threshold), so the threshold neither strictly increases nor equals
the old threshold multiplied by the boost factor. -/
theorem threshold_boost_cex :
    (frameBeat true false initBeatState cexAudioBass 0).1 = cexBoostState
    ∧ BassFires cexBoostState cexAudioBass
    ∧ (frameBeat true false cexBoostState cexAudioBass 0).1.bassThreshold
        = cexBoostState.bassThreshold
    ∧ cexBoostState.bassThreshold * 1.5
        ≠ (frameBeat true false cexBoostState cexAudioBass 0).1.bassThreshold := by
  have hB0 : BassFires initBeatState cexAudioBass := by
    constructor <;> norm_num [initBeatState, cexAudioBass, BEAT_THRESHOLD_INIT]
  have hB1 : BassFires cexBoostState cexAudioBass := by
    constructor <;> norm_num [cexBoostState, cexAudioBass]
  have h2 : (frameBeat true false cexBoostState cexAudioBass 0).1.bassThreshold
      = BEAT_THRESHOLD_INIT * 1.5 := by
    simp [frameBeat, beatDecision, hB1]
  refine ⟨?_, hB1, ?_, ?_⟩
  · simp only [frameBeat, beatDecision, hB0, if_true, and_self, reduceIte]
    simp [hB0, initBeatState, cexAudioBass, cexBoostState, BEAT_THRESHOLD_INIT,
      BEAT_DECAY_RATE, BeatState.mk.injEq, max_def]
    norm_num
  · rw [h2]; norm_num [cexBoostState, BEAT_THRESHOLD_INIT]
  · rw [h2]; norm_num [cexBoostState, BEAT_THRESHOLD_INIT]

/-- Witness for `threshold_update_spec`: the concrete bass onset from the
initial state sets the bass threshold to `BEAT_THRESHOLD_INIT * 1.5`. -/
theorem threshold_update_witness :
    (frameBeat true false initBeatState cexAudioBass 0).1.bassThreshold
      = BEAT_THRESHOLD_INIT * 1.5 :=
  ((threshold_update_spec initBeatState cexAudioBass 0).1
    ⟨by norm_num [initBeatState, cexAudioBass, BEAT_THRESHOLD_INIT],
     by norm_num [cexAudioBass]⟩).1

/-- Claim C5 (amended): the running averages are updated through the
`0.92 / 0.08` exponential moving average on every audio-active frame on
which the neon freeze flag is clear — regardless of whether any onset
fires — and are left entirely unchanged on frames where the audio graph is
missing, not playing, or suspended, as well as (in the neon variant) on
frozen frames. -/
theorem running_average_spec (st : BeatState) (a : AudioData) (now : ℤ)
    (active frozen : Bool) :
    (active = true → frozen = false →
        (frameBeat active frozen st a now).1.avgBass
            = st.avgBass * 0.92 + a.bassEnergy * 0.08
        ∧ (frameBeat active frozen st a now).1.avgMid
            = st.avgMid * 0.92 + a.midEnergy * 0.08
        ∧ (frameBeat active frozen st a now).1.avgTreble
            = st.avgTreble * 0.92 + a.trebleEnergy * 0.08)
    ∧ (active = false ∨ frozen = true → (frameBeat active frozen st a now).1 = st) := by
  constructor
  · intro ha hf
    subst ha; subst hf
    refine ⟨?_, ?_, ?_⟩ <;> simp [frameBeat, beatDecision]
  · intro h
    rcases h with h | h <;> subst h <;> simp [frameBeat]

/-- A beat state with a non-zero bass running average. -/
def cexAvgState : BeatState :=
  { avgBass := 100, avgMid := 0, avgTreble := 0,
    bassThreshold := BEAT_THRESHOLD_INIT, midThreshold := BEAT_THRESHOLD_INIT,
    trebleThreshold := BEAT_THRESHOLD_INIT, lastSpawnTime := 0 }

/-- Counterexample to claim C5 as stated: on a frame with no usable audio
graph the claim prescribes `avg := 0.92 * avg + 0.08 * 0 = 92`, but the
source skips the whole block and leaves the average at `100`. -/
theorem running_average_cex :
    (frameBeat false false cexAvgState cexAudioBass 0).1.avgBass = 100
    ∧ (100 : ℚ) * 0.92 + 0 * 0.08 ≠ 100 := by
  constructor
  · simp [frameBeat, cexAvgState]
  · norm_num

/-- Witness for `running_average_spec`: a concrete audio-active, unfrozen
frame updates the bass running average to `0 * 0.92 + 30 * 0.08`. -/
theorem running_average_witness :
    (frameBeat true false initBeatState cexAudioBass 0).1.avgBass
      = 0 * 0.92 + 30 * 0.08 :=
  ((running_average_spec initBeatState cexAudioBass 0 true false).1 rfl rfl).1

/-! ### Particles and spawning (`types.ts`, `addParticle` / `spawnSnowflake`
of the classic visualizer, `spawnNeonSnowflake` of the neon visualizer) -/

/-- The classic particle record (`Particle` of `types.ts`). -/
structure Particle where
  x : ℚ
  y : ℚ
  z : ℚ
  vx : ℚ
  vy : ℚ
  vz : ℚ
  alpha : ℚ
  size : ℚ
  color : String
  life : ℚ
  decayRate : ℚ
  shimmerOffset : ℚ
  deriving DecidableEq

/-- The random draws consumed by one `addParticle` call.  The source's
`shimmerOffset = Math.random() * Math.PI * 2` is stored as
`shimmerRand * 2`: the random draw and the factor 2 are kept, the
irrational factor π is omitted — no claim depends on the value. -/
structure ParticleRands where
  sizeRand : ℚ
  decayRand : ℚ
  shimmerRand : ℚ
  deriving DecidableEq

/-- `addParticle` of the classic visualizer (`part_000`, lines 604–618):
cap guard `length > 4000`, then push of a single freshly initialised
particle. -/
def addParticle (ps : List Particle) (x y z vx vy vz : ℚ) (color : String)
    (lifeMult sizeMult : ℚ) (r : ParticleRands) : List Particle :=
  if 4000 < ps.length then ps
  else
    ps ++ [{ x := x, y := y, z := z, vx := vx, vy := vy, vz := vz,
             alpha := 1,
             size := (r.sizeRand * SIZE_VARIATION * 0.6 + BASE_PARTICLE_SIZE) * sizeMult,
             color := color,
             life := 1.0 * lifeMult,
             decayRate := FADE_SPEED_BASE + r.decayRand * FADE_SPEED_VAR,
             shimmerOffset := r.shimmerRand * 2 }]

/-- The neon particle record (`NeonParticle` of the neon visualizer; the
`vertices` shard polygon — immutable, draw-only offsets with irrational
trigonometric coordinates — is not modelled). -/
structure NeonParticle where
  x : ℚ
  y : ℚ
  z : ℚ
  vx : ℚ
  vy : ℚ
  vz : ℚ
  alpha : ℚ
  size : ℚ
  hue : ℚ
  life : ℚ
  decayRate : ℚ
  shimmerOffset : ℚ
  spinSpeed : ℚ
  angle : ℚ
  deriving DecidableEq

/-- JavaScript's `%` (truncated-division remainder) on rationals. -/
def jsRem (a b : ℚ) : ℚ :=
  a - b * (((if 0 ≤ a / b then ⌊a / b⌋ else ⌈a / b⌉) : ℤ) : ℚ)

/-- The random draws consumed for one particle pushed by the inner loop of
`spawnNeonSnowflake`.  As with `ParticleRands`, the irrational factor π of
`shimmerOffset` and `angle` is omitted. -/
structure NeonRands where
  sizeRand : ℚ
  hueRand : ℚ
  decayRand : ℚ
  shimmerRand : ℚ
  spinRand : ℚ
  angleRand : ℚ
  deriving DecidableEq

/-- One particle as pushed by the inner loop of `spawnNeonSnowflake`
(`part_000`, lines 283–296).  The velocity `(vx, vy, vz)` — the rotated,
scaled sample coordinates times `speedBase`, irrational in general — enters
as a parameter. -/
def freshNeonParticle (startX startY startZ vx vy vz scale baseHue : ℚ)
    (r : NeonRands) : NeonParticle :=
  { x := startX, y := startY, z := startZ,
    vx := vx, vy := vy, vz := vz,
    alpha := 1,
    size := (r.sizeRand * 4 + 1) * scale,
    hue := jsRem (baseHue + r.hueRand * 40 - 20) 360,
    life := 1.0,
    decayRate := FADE_SPEED_BASE + r.decayRand * FADE_SPEED_VAR,
    shimmerOffset := r.shimmerRand * 2,
    spinSpeed := (r.spinRand - 0.5) * 0.2,
    angle := r.angleRand * 2 }

/-- `spawnNeonSnowflake`'s effect on the particle store and
`lastSpawnTimeRef` (`part_000`, lines 163–298): the early-return cap guard
`length > 2000`, then `lastSpawnTimeRef = Date.now()` and the push loop
appending the burst.  The burst contents — blueprint point sampling,
six-fold arm replication and random thinning, whose geometry is irrational —
are taken as a parameter; each element is produced by
`freshNeonParticle`. -/
def spawnNeonSnowflake (burst : List NeonParticle) (now : ℤ)
    (ps : List NeonParticle) (lastSpawnTime : ℤ) : List NeonParticle × ℤ :=
  if 2000 < ps.length then (ps, lastSpawnTime)
  else (ps ++ burst, now)

/-- A concrete classic particle used in counterexamples. -/
def dummyParticle : Particle :=
  { x := 0, y := 0, z := 0, vx := 0, vy := 0, vz := 0, alpha := 1, size := 1,
    color := "255, 255, 255", life := 1, decayRate := FADE_SPEED_BASE,
    shimmerOffset := 0 }

/-- A concrete neon particle used in witnesses (spawned at the origin with
zero velocity and all random draws `0`). -/
def dummyNeonParticle : NeonParticle :=
  freshNeonParticle 0 0 0 0 0 0 1 0 ⟨0, 0, 0, 0, 0, 0⟩

/-- Counterexample to claim C4 as stated: an `addParticle` call on a classic
store holding exactly 4000 particles (the configured cap) passes the
`length > 4000` guard and pushes, leaving 4001 particles — the collection
exceeds the cap after a spawn call. -/
theorem particle_cap_cex :
    (addParticle (List.replicate 4000 dummyParticle) 0 0 0 0 0 0
        "255, 255, 255" 1 1 ⟨0, 0, 0⟩).length = 4001
    ∧ 4000 < 4001 := by
  have key : ∀ l : List Particle, l.length = 4000 →
      (addParticle l 0 0 0 0 0 0 "255, 255, 255" 1 1 ⟨0, 0, 0⟩).length = 4001 := by
    intro l hl
    rw [addParticle, if_neg (by omega)]
    simp [hl]
  exact ⟨key _ (List.length_replicate 4000 dummyParticle), by norm_num⟩

/-- Claim C4 (amended): a spawn call that finds the collection strictly
above the cap (4000 classic, 2000 neon) is silently dropped with no other
effect; a call at or below the cap proceeds and may leave the collection
above the cap — classic `addParticle` adds at most one particle, so the
size after any call is at most `max (previous size) 4001`, while a neon
spawn at or below 2000 appends its whole burst. -/
theorem particle_cap_spec :
    (∀ ps x y z vx vy vz c lm sm r, 4000 < ps.length →
        addParticle ps x y z vx vy vz c lm sm r = ps)
    ∧ (∀ ps x y z vx vy vz c lm sm r,
        (addParticle ps x y z vx vy vz c lm sm r).length ≤ max ps.length 4001)
    ∧ (∀ burst now ps last, 2000 < ps.length →
        spawnNeonSnowflake burst now ps last = (ps, last))
    ∧ (∀ burst now ps last, ps.length ≤ 2000 →
        spawnNeonSnowflake burst now ps last = (ps ++ burst, now)) := by
  refine ⟨?_, ?_, ?_, ?_⟩
  · intro ps x y z vx vy vz c lm sm r h
    simp [addParticle, h]
  · intro ps x y z vx vy vz c lm sm r
    by_cases h : 4000 < ps.length
    · simp [addParticle, h, le_max_left]
    · have hle : ps.length ≤ 4000 := le_of_not_lt h
      simp only [addParticle, if_neg h, List.length_append, List.length_singleton]
      omega
  · intro burst now ps last h
    simp [spawnNeonSnowflake, h]
  · intro burst now ps last h
    simp [spawnNeonSnowflake, not_lt.mpr h]

/-- Witness for `particle_cap_spec`: a neon spawn against a store of 2001
particles is dropped, leaving store and last-spawn time unchanged. -/
theorem particle_cap_witness :
    spawnNeonSnowflake [dummyNeonParticle] 5
        (List.replicate 2001 dummyNeonParticle) 0
      = (List.replicate 2001 dummyNeonParticle, 0) :=
  particle_cap_spec.2.2.1 [dummyNeonParticle] 5
    (List.replicate 2001 dummyNeonParticle) 0
    (by rw [List.length_replicate]; norm_num)

/-! ### Physics integration and particle lifetime (render loops, `part_000`
lines 408–456 of the neon visualizer and 853–893 of the classic one) -/

/-- Per-particle physics integration of the neon render loop (lines
411–424): position by (old) velocity, gravity added to `vy`, friction on
all velocity components, spin added to `angle`, and `life` reduced by
`decayRate` plus the energy-proportional bonus
(`energy > 0 ? decayRate + (energy/255) * FADE_SPEED_VAR : decayRate`). -/
def updateNeonParticle (energy : ℚ) (p : NeonParticle) : NeonParticle :=
  { p with
    x := p.x + p.vx, y := p.y + p.vy, z := p.z + p.vz,
    vx := p.vx * FRICTION,
    vy := (p.vy + GRAVITY) * FRICTION,
    vz := p.vz * FRICTION,
    angle := p.angle + p.spinSpeed,
    life := p.life - (if 0 < energy then p.decayRate + energy / 255 * FADE_SPEED_VAR
                      else p.decayRate) }

/-- Per-particle physics integration of the classic render loop (lines
856–868): the same kinematics and decay, plus `alpha = life`. -/
def updateClassicParticle (energy : ℚ) (p : Particle) : Particle :=
  let life1 := p.life - (if 0 < energy then p.decayRate + energy / 255 * FADE_SPEED_VAR
                         else p.decayRate)
  { p with
    x := p.x + p.vx, y := p.y + p.vy, z := p.z + p.vz,
    vx := p.vx * FRICTION,
    vy := (p.vy + GRAVITY) * FRICTION,
    vz := p.vz * FRICTION,
    life := life1,
    alpha := life1 }

/-- One pass of the neon render loop over the particle store: when the
freeze flag is set the integration is skipped entirely; either way every
particle whose life is `≤ 0` is spliced out (the reverse-index iteration
with `splice` keeps the survivors' relative order). -/
def stepParticles (frozen : Bool) (energy : ℚ) (ps : List NeonParticle) :
    List NeonParticle :=
  (if frozen then ps else ps.map (updateNeonParticle energy)).filter
    fun p => decide (0 < p.life)

/-- One pass of the classic render loop over the particle store (no freeze
mode). -/
def stepClassicParticles (energy : ℚ) (ps : List Particle) : List Particle :=
  (ps.map (updateClassicParticle energy)).filter fun p => decide (0 < p.life)

/-- `k` consecutive unfrozen neon frames acting on one particle, with
per-frame energies `e 0, e 1, …`. -/
def runNeonParticle (e : ℕ → ℚ) : ℕ → NeonParticle → NeonParticle
  | 0, p => p
  | k + 1, p => updateNeonParticle (e k) (runNeonParticle e k p)

theorem updateNeonParticle_decayRate (energy : ℚ) (p : NeonParticle) :
    (updateNeonParticle energy p).decayRate = p.decayRate := rfl

theorem runNeonParticle_decayRate (e : ℕ → ℚ) (k : ℕ) (p : NeonParticle) :
    (runNeonParticle e k p).decayRate = p.decayRate := by
  induction k with
  | zero => rfl
  | succ k ih => simp [runNeonParticle, updateNeonParticle_decayRate, ih]

/-- On an unfrozen frame a particle's life drops by at least its own
`decayRate`. -/
theorem updateNeonParticle_life_le (energy : ℚ) (he : 0 ≤ energy)
    (p : NeonParticle) :
    (updateNeonParticle energy p).life ≤ p.life - p.decayRate := by
  simp only [updateNeonParticle]
  split_ifs with h
  · have hb : (0 : ℚ) ≤ energy / 255 * FADE_SPEED_VAR :=
      mul_nonneg (div_nonneg he (by norm_num)) (by norm_num [FADE_SPEED_VAR])
    linarith
  · exact le_refl _

/-- Life after `k` unfrozen frames is at most `life₀ - k * FADE_SPEED_BASE`
for a particle whose decay rate is at least `FADE_SPEED_BASE`. -/
theorem runNeonParticle_life_bound (p : NeonParticle) (e : ℕ → ℚ)
    (he : ∀ n, 0 ≤ e n) (hd : FADE_SPEED_BASE ≤ p.decayRate) (k : ℕ) :
    (runNeonParticle e k p).life ≤ p.life - k * FADE_SPEED_BASE := by
  induction k with
  | zero => simp [runNeonParticle]
  | succ k ih =>
      have h1 := updateNeonParticle_life_le (e k) (he k) (runNeonParticle e k p)
      rw [runNeonParticle_decayRate] at h1
      have hgoal : (runNeonParticle e (k + 1) p).life
          = (updateNeonParticle (e k) (runNeonParticle e k p)).life := rfl
      rw [hgoal]
      push_cast
      linarith

/-- Claim C6: a spawned particle starts at `life = 1` with
`decayRate ≥ FADE_SPEED_BASE = 0.008 > 0` (in both variants); on every
unfrozen frame its life drops by at least its own decay rate; consequently
within 125 unfrozen frames its life reaches `≤ 0`; and the render pass
removes every particle whose life is `≤ 0` on that same frame — every
surviving particle has `life > 0`. -/
theorem particle_mortality_spec (p : NeonParticle) (e : ℕ → ℚ)
    (he : ∀ n, 0 ≤ e n) (hl : p.life ≤ 1) (hd : FADE_SPEED_BASE ≤ p.decayRate) :
    (0 : ℚ) < FADE_SPEED_BASE
    ∧ (∀ k, (runNeonParticle e (k + 1) p).life
        ≤ (runNeonParticle e k p).life - p.decayRate)
    ∧ (runNeonParticle e 125 p).life ≤ 0
    ∧ (∀ startX startY startZ vx vy vz scale baseHue (r : NeonRands),
        0 ≤ r.decayRand →
        (freshNeonParticle startX startY startZ vx vy vz scale baseHue r).life = 1
        ∧ FADE_SPEED_BASE
            ≤ (freshNeonParticle startX startY startZ vx vy vz scale baseHue r).decayRate)
    ∧ (∀ ps x y z vx vy vz c sm (r : ParticleRands), 0 ≤ r.decayRand →
        ∀ q ∈ addParticle ps x y z vx vy vz c 1 sm r,
          q ∈ ps ∨ (q.life = 1 ∧ FADE_SPEED_BASE ≤ q.decayRate))
    ∧ (∀ frozen energy ps, ∀ q ∈ stepParticles frozen energy ps, 0 < q.life)
    ∧ (∀ energy ps, ∀ q ∈ stepClassicParticles energy ps, 0 < q.life) := by
  refine ⟨by norm_num [FADE_SPEED_BASE], ?_, ?_, ?_, ?_, ?_, ?_⟩
  · intro k
    have h1 := updateNeonParticle_life_le (e k) (he k) (runNeonParticle e k p)
    rw [runNeonParticle_decayRate] at h1
    exact h1
  · have h := runNeonParticle_life_bound p e he hd 125
    have h125 : (125 : ℚ) * FADE_SPEED_BASE = 1 := by norm_num [FADE_SPEED_BASE]
    calc (runNeonParticle e 125 p).life ≤ p.life - 125 * FADE_SPEED_BASE := by
          simpa using h
      _ ≤ 1 - 1 := by rw [h125]; linarith
      _ = 0 := by norm_num
  · intro startX startY startZ vx vy vz scale baseHue r hr
    constructor
    · norm_num [freshNeonParticle]
    · have : (0 : ℚ) ≤ r.decayRand * FADE_SPEED_VAR :=
        mul_nonneg hr (by norm_num [FADE_SPEED_VAR])
      simp only [freshNeonParticle]
      linarith
  · intro ps x y z vx vy vz c sm r hr q hq
    by_cases hcap : 4000 < ps.length
    · left; simpa [addParticle, hcap] using hq
    · rw [addParticle, if_neg hcap] at hq
      rcases List.mem_append.mp hq with h | h
      · exact Or.inl h
      · right
        have hqeq := List.mem_singleton.mp h
        subst hqeq
        constructor
        · norm_num
        · have : (0 : ℚ) ≤ r.decayRand * FADE_SPEED_VAR :=
            mul_nonneg hr (by norm_num [FADE_SPEED_VAR])
          simp only
          linarith
  · intro frozen energy ps q hq
    have := (List.mem_filter.mp hq).2
    simpa using this
  · intro energy ps q hq
    have := (List.mem_filter.mp hq).2
    simpa using this

/-- Witness for `particle_mortality_spec`: the concrete particle spawned
with all random draws zero (`life = 1`, `decayRate = 0.008`) is dead after
exactly 125 silent frames. -/
theorem particle_mortality_witness :
    (runNeonParticle (fun _ => 0) 125 dummyNeonParticle).life ≤ 0 :=
  (particle_mortality_spec dummyNeonParticle (fun _ => 0) (fun _ => le_refl 0)
    (by norm_num [dummyNeonParticle, freshNeonParticle])
    (by norm_num [dummyNeonParticle, freshNeonParticle, FADE_SPEED_BASE,
      FADE_SPEED_VAR])).2.2.1

/-! ### Blueprint generator (`part_000`, lines 190–205 of
`spawnNeonSnowflake` and 649–669 of `spawnSnowflake`; the rib loop is
textually identical in both). -/

/-- The tip-shape variants of a blueprint. -/
inductive TipShape
  | point
  | fork
  | star
  deriving DecidableEq

/-- A rib of the snowflake blueprint.  The source stores the constant
branch angle `Math.PI / 3`; the model records the rational coefficient of
π, namely `1/3`. -/
structure Rib where
  pos : ℚ
  length : ℚ
  angleOverPi : ℚ
  subRibs : ℕ
  deriving DecidableEq

/-- The `SnowflakeBlueprint` record. -/
structure SnowflakeBlueprint where
  armLength : ℚ
  centerPlateSize : ℚ
  ribs : List Rib
  tipShape : TipShape
  deriving DecidableEq

/-- The rib built at loop index `r` of `numRibs`: position
`0.2 + (r / numRibs) * 0.6`, maximal length `(1 - pos) * 0.6`, drawn length
`maxLen * (0.4 + rand * 0.6)`, and `Math.floor(Math.random() * 3)` sub-ribs
when the length exceeds `0.3`. -/
def mkRib (numRibs r : ℕ) (lenRand subRand : ℚ) : Rib :=
  let pos : ℚ := 0.2 + ((r : ℚ) / (numRibs : ℚ)) * 0.6
  let maxLen : ℚ := (1 - pos) * 0.6
  let len : ℚ := maxLen * (0.4 + lenRand * 0.6)
  { pos := pos, length := len, angleOverPi := 1 / 3,
    subRibs := if 0.3 < len then (⌊subRand * 3⌋).toNat else 0 }

/-- `numRibs = Math.floor(Math.random() * 4) + 2`. -/
def numRibsOf (rand : ℚ) : ℕ := (⌊rand * 4⌋).toNat + 2

/-- The rib-generation loop, with the random draws of iteration `r` given
by `lenRand r` and `subRand r`. -/
def mkRibs (numRibs : ℕ) (lenRand subRand : ℕ → ℚ) : List Rib :=
  (List.range numRibs).map fun r => mkRib numRibs r (lenRand r) (subRand r)

/-- The blueprint built by `spawnNeonSnowflake`: optional center plate
(probability 0.3, size `0.15 + rand * 0.1`), the rib loop, and the tip
draw `Math.random() > 0.5 ? 'point' : 'fork'`. -/
def mkBlueprint (plateRand plateSizeRand tipRand numRand : ℚ)
    (lenRand subRand : ℕ → ℚ) : SnowflakeBlueprint :=
  { armLength := 1,
    centerPlateSize := if plateRand < 0.3 then 0.15 + plateSizeRand * 0.1 else 0,
    ribs := mkRibs (numRibsOf numRand) lenRand subRand,
    tipShape := if 0.5 < tipRand then TipShape.point else TipShape.fork }

/-- The blueprint built by the classic `spawnSnowflake`; it differs from
the neon one only in the tip draw
`Math.random() > 0.5 ? 'point' : (Math.random() > 0.5 ? 'fork' : 'star')`. -/
def mkBlueprintClassic (plateRand plateSizeRand tipRand tipRand2 numRand : ℚ)
    (lenRand subRand : ℕ → ℚ) : SnowflakeBlueprint :=
  { armLength := 1,
    centerPlateSize := if plateRand < 0.3 then 0.15 + plateSizeRand * 0.1 else 0,
    ribs := mkRibs (numRibsOf numRand) lenRand subRand,
    tipShape := if 0.5 < tipRand then TipShape.point
                else if 0.5 < tipRand2 then TipShape.fork else TipShape.star }

/-- Claim C7 (amended): every produced blueprint (both variants) has
between 2 and 5 ribs inclusive, with strictly increasing `pos` values lying
in the half-open interval `[0.2, 0.8)` — the first rib sits exactly at
`0.2`. -/
theorem blueprint_ribs_spec (plateRand plateSizeRand tipRand tipRand2 numRand : ℚ)
    (lenRand subRand : ℕ → ℚ) (h0 : 0 ≤ numRand) (h1 : numRand < 1) :
    2 ≤ (mkBlueprint plateRand plateSizeRand tipRand numRand lenRand subRand).ribs.length
    ∧ (mkBlueprint plateRand plateSizeRand tipRand numRand lenRand subRand).ribs.length ≤ 5
    ∧ (mkBlueprint plateRand plateSizeRand tipRand numRand lenRand
          subRand).ribs.Pairwise (fun r1 r2 => r1.pos < r2.pos)
    ∧ (∀ rib ∈ (mkBlueprint plateRand plateSizeRand tipRand numRand lenRand subRand).ribs,
        0.2 ≤ rib.pos ∧ rib.pos < 0.8)
    ∧ (mkBlueprintClassic plateRand plateSizeRand tipRand tipRand2 numRand lenRand
          subRand).ribs
        = (mkBlueprint plateRand plateSizeRand tipRand numRand lenRand subRand).ribs := by
  have hfl0 : (0 : ℤ) ≤ ⌊numRand * 4⌋ := Int.floor_nonneg.mpr (by positivity)
  have hfl3 : ⌊numRand * 4⌋ < 4 := Int.floor_lt.mpr (by push_cast; nlinarith)
  have hn2 : 2 ≤ numRibsOf numRand := by unfold numRibsOf; omega
  have hn5 : numRibsOf numRand ≤ 5 := by unfold numRibsOf; omega
  have hnpos : (0 : ℚ) < (numRibsOf numRand : ℚ) := by
    have : 0 < numRibsOf numRand := by omega
    exact_mod_cast this
  have hlen : (mkBlueprint plateRand plateSizeRand tipRand numRand lenRand
      subRand).ribs.length = numRibsOf numRand := by
    simp [mkBlueprint, mkRibs]
  refine ⟨by rw [hlen]; exact hn2, by rw [hlen]; exact hn5, ?_, ?_, rfl⟩
  · show (mkRibs (numRibsOf numRand) lenRand subRand).Pairwise _
    unfold mkRibs
    refine (List.pairwise_map).mpr ((List.pairwise_lt_range _).imp ?_)
    intro a b hab
    have hdiv : (a : ℚ) / (numRibsOf numRand : ℚ) < (b : ℚ) / (numRibsOf numRand : ℚ) :=
      (div_lt_div_iff_of_pos_right hnpos).mpr (by exact_mod_cast hab)
    simp only [mkRib]
    linarith
  · intro rib hrib
    simp only [mkBlueprint, mkRibs, List.mem_map, List.mem_range] at hrib
    obtain ⟨r, hr, rfl⟩ := hrib
    have hdivnn : (0 : ℚ) ≤ (r : ℚ) / (numRibsOf numRand : ℚ) :=
      div_nonneg (by positivity) hnpos.le
    have hdivlt : (r : ℚ) / (numRibsOf numRand : ℚ) < 1 :=
      (div_lt_one hnpos).mpr (by exact_mod_cast hr)
    constructor
    · simp only [mkRib]
      linarith
    · simp only [mkRib]
      linarith

/-- Counterexample to claim C7 as stated: with the rib-count draw `0`
(two ribs) the produced rib positions are exactly `[0.2, 0.5]`; the first
rib sits at `0.2`, which is not strictly inside the open interval
`(0.2, 0.8)`. -/
theorem blueprint_ribs_cex :
    (mkBlueprint 0.5 0 0.7 0 (fun _ => 0) (fun _ => 0)).ribs.map Rib.pos = [0.2, 0.5]
    ∧ ¬ (∀ rib ∈ (mkBlueprint 0.5 0 0.7 0 (fun _ => 0) (fun _ => 0)).ribs,
          0.2 < rib.pos ∧ rib.pos < 0.8) := by
  have hnum : numRibsOf 0 = 2 := by
    norm_num [numRibsOf]
  have hribs : (mkBlueprint 0.5 0 0.7 0 (fun _ => 0) (fun _ => 0)).ribs
      = [mkRib 2 0 0 0, mkRib 2 1 0 0] := by
    simp [mkBlueprint, mkRibs, hnum, List.range_succ]
  constructor
  · rw [hribs]
    simp only [List.map_cons, List.map_nil]
    norm_num [mkRib]
  · intro hall
    have hmem : mkRib 2 0 0 0 ∈ (mkBlueprint 0.5 0 0.7 0 (fun _ => 0) (fun _ => 0)).ribs := by
      rw [hribs]; exact List.mem_cons_self _ _
    have hp := (hall _ hmem).1
    norm_num [mkRib] at hp

/-- Witness for `blueprint_ribs_spec`: the concrete blueprint drawn with
rib-count random `0` has between 2 and 5 ribs. -/
theorem blueprint_ribs_witness :
    2 ≤ (mkBlueprint 0.5 0 0.7 0 (fun _ => 0) (fun _ => 0)).ribs.length
    ∧ (mkBlueprint 0.5 0 0.7 0 (fun _ => 0) (fun _ => 0)).ribs.length ≤ 5 :=
  ⟨(blueprint_ribs_spec 0.5 0 0.7 0 0 (fun _ => 0) (fun _ => 0) le_rfl
      (by norm_num)).1,
   (blueprint_ribs_spec 0.5 0 0.7 0 0 (fun _ => 0) (fun _ => 0) le_rfl
      (by norm_num)).2.1⟩

/-! ### Gesture controller (`detectGestures`, `part_000` lines 301–342) -/

/-- A recognition result of the external gesture recognizer: the top
category name per detected hand (`result.gestures[i][0].categoryName`) and
the per-hand landmark lists (normalized coordinates). -/
structure RecognitionResult where
  gestures : List String
  landmarks : List (List (ℚ × ℚ))
  deriving DecidableEq

/-- The gesture/offset state: `isFrozenRef`, `targetOffsetRef`,
`lastDetectedGestureRef` and `lastVideoTimeRef`. -/
structure GestureState where
  isFrozen : Bool
  targetOffset : ℚ × ℚ
  lastDetectedGesture : String
  lastVideoTime : ℚ
  deriving DecidableEq

/-- The startup gesture state. -/
def initGestureState : GestureState :=
  { isFrozen := false, targetOffset := (0, 0), lastDetectedGesture := "None",
    lastVideoTime := -1 }

/-- `detectGestures`.  `ready` summarizes the guard
`gestureRecognizerRef.current && videoRef.current && isCameraReadyRef`;
`videoTime` is `video.currentTime`; `recog = none` models
`recognizeForVideo` throwing (the `catch` swallows the exception; the
`lastVideoTimeRef` write happens before the `try` and is therefore kept).
The recognizer always supplies 21 landmarks per hand, so the source's
`landmarks[9]` access is modelled with a defaulted lookup.  The returned
`Option String` is the `onGestureChange` callback payload, fired only when
the label differs from the previous frame's. -/
def detectGestures (ready : Bool) (st : GestureState) (videoTime : ℚ)
    (recog : Option RecognitionResult) : GestureState × Option String :=
  if ready = false then (st, none)
  else if videoTime = st.lastVideoTime then (st, none)
  else
    let st1 := { st with lastVideoTime := videoTime }
    match recog with
    | none => (st1, none)
    | some result =>
      let gesture := match result.gestures with
        | [] => "None"
        | g :: _ => g
      let st2 :=
        match result.gestures with
        | [] => { st1 with isFrozen := false, targetOffset := (0, 0) }
        | _ :: _ =>
          if gesture = "Open_Palm" then
            let lm := result.landmarks.headD []
            if 0 < lm.length then
              let c := lm.getD 9 (0, 0)
              { st1 with
                  isFrozen := true,
                  targetOffset := ((0.5 - c.1) * 300 * 2, (0.5 - c.2) * 300 * 2) }
            else { st1 with isFrozen := true }
          else { st1 with isFrozen := false, targetOffset := (0, 0) }
      if gesture ≠ st2.lastDetectedGesture then
        ({ st2 with lastDetectedGesture := gesture }, some gesture)
      else (st2, none)

/-- Claim C9: when the per-frame recognition call throws, the exception is
caught and silently dropped: the freeze flag, the target pan offset, and
the last detected gesture label keep their values from before the call,
and no gesture-change callback fires. -/
theorem gesture_exception_spec (ready : Bool) (st : GestureState) (videoTime : ℚ) :
    ((detectGestures ready st videoTime none).1.isFrozen = st.isFrozen)
    ∧ ((detectGestures ready st videoTime none).1.targetOffset = st.targetOffset)
    ∧ ((detectGestures ready st videoTime none).1.lastDetectedGesture
        = st.lastDetectedGesture)
    ∧ ((detectGestures ready st videoTime none).2 = none) := by
  unfold detectGestures
  by_cases hr : ready = false
  · simp [hr]
  · by_cases ht : videoTime = st.lastVideoTime <;> simp [hr, ht]

/-- Witness for `gesture_exception_spec`: a thrown recognition at a fresh
timestamp leaves the initial state's freeze flag clear. -/
theorem gesture_exception_witness :
    (detectGestures true initGestureState 1 none).1.isFrozen
      = initGestureState.isFrozen :=
  (gesture_exception_spec true initGestureState 1).1

/-! ### Projection (`rotate3D`, `part_000` lines 515–527, and the
projection code of both render loops) -/

/-- `rotate3D`.  The source computes `cosY = Math.cos(angleY)` and so on;
the model takes the four trigonometric values as arguments (for the zero
angles actually reached, `cos 0 = 1` and `sin 0 = 0`). -/
def rotate3D (x y z cosX sinX cosY sinY : ℚ) : ℚ × ℚ × ℚ :=
  let x1 := x * cosY - z * sinY
  let z1 := z * cosY + x * sinY
  let y2 := y * cosX - z1 * sinX
  let z2 := z1 * cosX + y * sinX
  (x1, y2, z2)

/-- `rotationRef` of the classic visualizer: initialized to `(0, 0)` at
line 568 and never written anywhere in the source. -/
def classicRotation : ℚ × ℚ := (0, 0)

/-- The classic projection (lines 871–880): rotate, guard `depth > 0`,
perspective-divide by `fov / (rotated.z + fov)`, offset by the canvas
center; the third component is the scale factor. -/
def classicProject (x y z cx cy fov cosX sinX cosY sinY : ℚ) :
    Option (ℚ × ℚ × ℚ) :=
  let r := rotate3D x y z cosX sinX cosY sinY
  let depth := r.2.2 + fov
  if 0 < depth then
    let scale := fov / depth
    some (r.1 * scale + cx, r.2.1 * scale + cy, scale)
  else none

/-- The neon projection (lines 428–434): scale `800 / (800 + z)`, guard
`scale > 0`, drawing translated by the panned center plus
`(x * scale, y * scale)`. -/
def neonProject (x y z cx cy : ℚ) : Option (ℚ × ℚ × ℚ) :=
  let scale := 800 / (800 + z)
  if 0 < scale then some (x * scale + cx, y * scale + cy, scale) else none

/-- Claim C10: the classic rotation state is the constant `(0, 0)`
(initialized to zero and never written), `rotate3D` at those angles
(`cos = 1`, `sin = 0`) is the identity, and the classic projection with
`fov = 800` coincides with the neon depth-only perspective divide
`800 / (800 + z)` on every particle position — including the positivity
guards, which agree exactly. -/
theorem projection_equivalence_spec (x y z cx cy : ℚ) :
    classicRotation = (0, 0)
    ∧ rotate3D x y z 1 0 1 0 = (x, y, z)
    ∧ classicProject x y z cx cy 800 1 0 1 0 = neonProject x y z cx cy := by
  have hrot : rotate3D x y z 1 0 1 0 = (x, y, z) := by
    simp [rotate3D]
  refine ⟨rfl, hrot, ?_⟩
  simp only [classicProject, neonProject, hrot]
  by_cases h : (0 : ℚ) < z + 800
  · have hsc : (0 : ℚ) < 800 / (800 + z) := div_pos (by norm_num) (by linarith)
    rw [if_pos h, if_pos hsc]
    have hcomm : z + 800 = 800 + z := by ring
    rw [hcomm]
  · have h800 : (800 : ℚ) + z ≤ 0 := by
      have := not_lt.mp h
      linarith
    have hz : ¬ (0 : ℚ) < 800 / (800 + z) := by
      rcases eq_or_lt_of_le h800 with heq | hlt
      · rw [heq]
        norm_num
      · exact not_lt.mpr (le_of_lt (div_neg_of_pos_of_neg (by norm_num) hlt))
    rw [if_neg h, if_neg hz]

/-- Witness for `projection_equivalence_spec` at the origin. -/
theorem projection_equivalence_witness :
    classicProject 0 0 0 0 0 800 1 0 1 0 = neonProject 0 0 0 0 0 :=
  (projection_equivalence_spec 0 0 0 0 0).2.2

/-! ### The composed neon frame (`render`, `part_000` lines 344–460) -/

/-- The mutable state consumed and produced by one neon `render` frame. -/
structure NeonFullState where
  beat : BeatState
  particles : List NeonParticle
  gest : GestureState
  cameraOffset : ℚ × ℚ
  deriving DecidableEq

/-- Application of the frame's spawn calls to the particle store and
`lastSpawnTimeRef` through `spawnNeonSnowflake`; `burst b i` is the
particle cloud that the call for band `b` at intensity `i` generates. -/
def applySpawnEvents (burst : Band → ℚ → List NeonParticle) (now : ℤ)
    (events : List (Band × ℚ)) (ps : List NeonParticle) (last : ℤ) :
    List NeonParticle × ℤ :=
  events.foldl (fun acc ev => spawnNeonSnowflake (burst ev.1 ev.2) now acc.1 acc.2)
    (ps, last)

/-- The perspective scale of the neon projection. -/
def neonScale (z : ℚ) : ℚ := 800 / (800 + z)

/-- The draw calls issued by the particle pass of one neon frame: every
particle surviving the (possibly skipped) integration with `life > 0` and
a positive projection scale is drawn at `(x * scale, y * scale)` relative
to the panned canvas center. -/
def neonDrawList (frozen : Bool) (energy : ℚ) (ps : List NeonParticle) :
    List (ℚ × ℚ) :=
  ((if frozen then ps else ps.map (updateNeonParticle energy)).filter
      fun p => decide (0 < p.life) && decide (0 < neonScale p.z)).map
    fun p => (p.x * neonScale p.z, p.y * neonScale p.z)

/-- One neon `render` frame: gesture detection, camera-offset smoothing,
energy of the frame (zero when the audio graph is unusable), the gated
beat-detection block, the spawn calls' effects, and the particle pass. -/
def neonFrame (burst : Band → ℚ → List NeonParticle) (ready : Bool)
    (videoTime : ℚ) (recog : Option RecognitionResult) (active : Bool)
    (a : AudioData) (now : ℤ) (st : NeonFullState) :
    NeonFullState × List (Band × ℚ) × Option String :=
  let g := (detectGestures ready st.gest videoTime recog).1
  let cb := (detectGestures ready st.gest videoTime recog).2
  let cam := (st.cameraOffset.1 + (g.targetOffset.1 - st.cameraOffset.1) * 0.1,
              st.cameraOffset.2 + (g.targetOffset.2 - st.cameraOffset.2) * 0.1)
  let energy := if active = true then a.energy else 0
  let beatOut := frameBeat active g.isFrozen st.beat a now
  let spawned := applySpawnEvents burst now beatOut.2 st.particles
    beatOut.1.lastSpawnTime
  let ps2 := stepParticles g.isFrozen energy spawned.1
  ({ beat := { beatOut.1 with lastSpawnTime := spawned.2 },
     particles := ps2, gest := g, cameraOffset := cam },
   beatOut.2, cb)

/-- Claim C8: a fresh open-palm detection sets the freeze flag (any other
detection, or an empty one, clears it); on every frame whose freeze flag is
set, the beat state is untouched, no spawn call is made, every live
particle's fields are left unchanged by the frame, and the frame still
draws every particle with `life > 0` (and positive projection scale, which
holds for all reachable depths, `z > -800`) at the screen position derived
from its stored coordinates. -/
theorem freeze_frame_spec (burst : Band → ℚ → List NeonParticle) (ready : Bool)
    (videoTime : ℚ) (recog : Option RecognitionResult) (active : Bool)
    (a : AudioData) (now : ℤ) (st : NeonFullState)
    (hfroz : (detectGestures ready st.gest videoTime recog).1.isFrozen = true)
    (halive : ∀ p ∈ st.particles, 0 < p.life) :
    ((neonFrame burst ready videoTime recog active a now st).1.particles
        = st.particles)
    ∧ ((neonFrame burst ready videoTime recog active a now st).2.1 = [])
    ∧ ((neonFrame burst ready videoTime recog active a now st).1.beat = st.beat)
    ∧ (∀ energy, ∀ p ∈ st.particles, -800 < p.z →
        (p.x * neonScale p.z, p.y * neonScale p.z)
          ∈ neonDrawList true energy st.particles)
    ∧ (∀ (gst : GestureState) (t : ℚ) (res : RecognitionResult)
          (tl : List String),
        t ≠ gst.lastVideoTime → res.gestures = "Open_Palm" :: tl →
        (detectGestures true gst t (some res)).1.isFrozen = true)
    ∧ (∀ (gst : GestureState) (t : ℚ) (res : RecognitionResult) (g0 : String)
          (tl : List String),
        t ≠ gst.lastVideoTime → res.gestures = g0 :: tl → g0 ≠ "Open_Palm" →
        (detectGestures true gst t (some res)).1.isFrozen = false)
    ∧ (∀ (gst : GestureState) (t : ℚ) (res : RecognitionResult),
        t ≠ gst.lastVideoTime → res.gestures = [] →
        (detectGestures true gst t (some res)).1.isFrozen = false) := by
  have hfb : frameBeat active true st.beat a now = (st.beat, []) := by
    simp [frameBeat]
  have hstep : ∀ energy, stepParticles true energy st.particles = st.particles := by
    intro energy
    unfold stepParticles
    rw [if_pos rfl]
    exact List.filter_eq_self.mpr fun p hp => decide_eq_true (halive p hp)
  refine ⟨?_, ?_, ?_, ?_, ?_, ?_, ?_⟩
  · simp only [neonFrame, hfroz, hfb, applySpawnEvents, List.foldl_nil]
    exact hstep _
  · simp only [neonFrame, hfroz, hfb]
  · simp only [neonFrame, hfroz, hfb, applySpawnEvents, List.foldl_nil]
  · intro energy p hp hz
    have hsc : 0 < neonScale p.z := by
      unfold neonScale
      exact div_pos (by norm_num) (by linarith)
    unfold neonDrawList
    rw [if_pos rfl]
    exact List.mem_map.mpr ⟨p, List.mem_filter.mpr ⟨hp, by
      simp [decide_eq_true (halive p hp), decide_eq_true hsc]⟩, rfl⟩
  · intro gst t res tl hne hres
    simp [detectGestures, hne, hres, apply_ite]
  · intro gst t res g0 tl hne hres hg0
    simp [detectGestures, hne, hres, hg0, apply_ite]
  · intro gst t res hne hres
    simp [detectGestures, hne, hres, apply_ite]

/-- The trivial burst used in witnesses. -/
def emptyBurst : Band → ℚ → List NeonParticle := fun _ _ => []

/-- An open-palm recognition with no landmark list. -/
def palmResult : RecognitionResult := { gestures := ["Open_Palm"], landmarks := [] }

/-- A concrete full neon state holding one live particle. -/
def cexNeonState : NeonFullState :=
  { beat := initBeatState, particles := [dummyNeonParticle],
    gest := initGestureState, cameraOffset := (0, 0) }

/-- Witness for `freeze_frame_spec`: a frame that detects an open palm at a
fresh timestamp leaves the concrete one-particle store unchanged. -/
theorem freeze_frame_witness :
    (neonFrame emptyBurst true 1 (some palmResult) true cexAudioBass 0
        cexNeonState).1.particles = cexNeonState.particles :=
  (freeze_frame_spec emptyBurst true 1 (some palmResult) true cexAudioBass 0
    cexNeonState
    (by simp [detectGestures, cexNeonState, initGestureState, palmResult, apply_ite]
        norm_num)
    (by intro p hp
        simp only [cexNeonState, List.mem_singleton] at hp
        subst hp
        norm_num [dummyNeonParticle, freshNeonParticle])).1

end Snowflake
